import Mathlib

/-!
Verification model of the attest-tools sources (libs/util.c,
src/attest_ra_server.c, src/attest_ra_client.c, src/attest_tls_client.c).

The C code is shallowly embedded: machine integers are modelled as Nat or
Int with explicit reduction modulo 2^w where the C type wraps (size_t is
64 bits, int is 32 bits; the build target is a 64-bit little-endian
machine, so sizeof(size_t) = 8 and sizeof(int) = 4).  Socket reads and
writes are modelled on byte sequences (List Nat, one Nat per octet);
fallible paths return Option, with none standing for undefined behaviour
(an out-of-bounds access) or for a read that blocks on an exhausted
stream.  Error codes keep their numeric values: EINVAL = 22, ENOENT = 2,
EIO = 5, ERANGE = 34.
-/

/-! ### Byte-level helpers -/

/-- Little-endian byte encoding of a value into exactly k bytes, as the C
code produces by writing the in-memory representation of an integer on a
little-endian machine. -/
def toLE : Nat → Nat → List Nat
  | 0, _ => []
  | k + 1, v => v % 256 :: toLE k (v / 256)

/-- Little-endian interpretation of a byte sequence, as the C code obtains
by reading raw bytes into an integer variable. -/
def fromLE : List Nat → Nat
  | [] => 0
  | b :: bs => b + 256 * fromLE bs

/-- Value of a 4-byte little-endian load reinterpreted as a signed 32-bit
int (two's complement). -/
def int32OfNat (v : Nat) : Int :=
  if v < 2 ^ 31 then (v : Int) else (v : Int) - 2 ^ 32

/-! ### libs/util.c: attest_util_rw_buf (lines 163-192)

The C loop keeps calling read(2) or write(2) until processed bytes reach
buf_len.  Both processed and cur_processed are declared size_t, so a
syscall return of -1 is stored as 2^64 - 1 and the check
cur_processed <= 0 only catches a return of 0.  The model takes the
sequence of syscall return values (as ssize_t) and the requested length;
it returns some 0 on success, some (-5) for -EIO, and none when the trace
is exhausted while the loop would call the syscall again. -/

/-- One step of the attest_util_rw_buf loop; processed is a size_t. -/
def rwBufGo (buf_len : Nat) : List Int → Nat → Option Int
  | [], processed => if processed < buf_len then none else some 0
  | r :: rs, processed =>
    if processed < buf_len then
      if (r % (2 ^ 64 : Int)).toNat = 0 then some (-5)
      else rwBufGo buf_len rs ((processed + (r % (2 ^ 64 : Int)).toNat) % 2 ^ 64)
    else some 0

/-- Model of attest_util_rw_buf (hence of attest_util_read_buf and
attest_util_write_buf): trace lists the successive return values of the
underlying read/write calls. -/
def attest_util_rw_buf (trace : List Int) (buf_len : Nat) : Option Int :=
  rwBufGo buf_len trace 0

/-! ### libs/util.c: attest_util_check_mask (lines 364-381)

The function takes (mask_in_len, mask_in, mask_ref_len, mask_ref), returns
-EINVAL (-22) when mask_in_len > mask_ref_len, then iterates i over
0 .. mask_ref_len - 1, returning -ENOENT (-2) when
(i > mask_in_len and mask_ref[i] is nonzero) or when
(mask_in[i] & mask_ref[i]) differs from mask_ref[i], and 0 at loop end.
Reading mask_in[i] with i at or past mask_in_len is an out-of-bounds
access: the model returns none there. -/

/-- Loop of attest_util_check_mask: index i walks the remaining
reference-mask bytes; A is the full asserted mask (mask_in). -/
def cmLoop (A : List Nat) : Nat → List Nat → Option Int
  | _, [] => some 0
  | i, r :: rs =>
    if i > A.length ∧ r ≠ 0 then some (-2)
    else
      match A[i]? with
      | none => none
      | some a => if ¬ (a &&& r = r) then some (-2) else cmLoop A (i + 1) rs

/-- Model of attest_util_check_mask: the first list is the asserted mask
(mask_in), the second the required mask (mask_ref); each entry is one
uint8_t. -/
def attest_util_check_mask (mask_in mask_ref : List Nat) : Option Int :=
  if mask_in.length > mask_ref.length then some (-22) else cmLoop mask_in 0 mask_ref

/-- Spec-side coverage predicate, written from the spec words: every bit
set in the required mask is also set in the asserted mask (bytes past the
end of a mask read as zero). -/
def maskCoversSpec (A R : List Nat) : Bool :=
  (List.range R.length).all (fun i => (A.getD i 0 &&& R.getD i 0) == R.getD i 0)

/-! ### libs/util.c: attest_util_parse_pcr_list (lines 383-415)

The C function first stores -1 into pcr_list[0 .. pcr_list_num - 1] (all
in bounds), then walks the strsep(.., ",") pieces of a copy of the input
with a write index i starting at 0: a piece is rejected with -ERANGE only
when i > pcr_list_num, then pcr = strtol(piece, NULL, 10) is taken, a
negative pcr is returned as the error code, and otherwise
pcr_list[i++] = pcr is stored.  The model records the sequence of those
entry stores as (index, value) pairs together with the return code. -/

/-- Split a character list at each comma, as strsep(&list, ",") yields the
successive pieces (an empty input yields one empty piece). -/
def splitCommasGo : List Char → List Char → List (List Char)
  | [], acc => [acc.reverse]
  | c :: cs, acc =>
    if c = ',' then acc.reverse :: splitCommasGo cs []
    else splitCommasGo cs (c :: acc)

/-- All strsep pieces of the input string. -/
def splitCommas (cs : List Char) : List (List Char) := splitCommasGo cs []

/-- Accumulate leading decimal digits, as strtol does after the sign. -/
def digitsVal : List Char → Nat → Nat
  | [], acc => acc
  | c :: cs, acc =>
    if c.isDigit then digitsVal cs (acc * 10 + (c.toNat - 48)) else acc

/-- Whitespace accepted by strtol (the C isspace set). -/
def isSpaceC (c : Char) : Bool :=
  c = ' ' || c = '\t' || c = '\n' || c = '\x0b' || c = '\x0c' || c = '\r'

/-- Model of strtol(s, NULL, 10): skip whitespace, take an optional sign,
then leading digits; no digits gives 0.  Values are assumed to fit in the
int the caller stores them in. -/
def strtolModel (cs : List Char) : Int :=
  match cs.dropWhile isSpaceC with
  | '-' :: rest => -(digitsVal rest 0 : Int)
  | '+' :: rest => (digitsVal rest 0 : Int)
  | rest => (digitsVal rest 0 : Int)

/-- Loop of attest_util_parse_pcr_list over the strsep pieces, recording
every store pcr_list[i] = pcr as a pair (i, pcr). -/
def parsePcrGo (num : Nat) : List (List Char) → Nat → List (Nat × Int) → Int × List (Nat × Int)
  | [], _, ws => (0, ws.reverse)
  | p :: ps, i, ws =>
    if i > num then (-34, ws.reverse)
    else
      let pcr := strtolModel p
      if pcr < 0 then (pcr, ws.reverse)
      else parsePcrGo num ps (i + 1) ((i, pcr) :: ws)

/-- Model of attest_util_parse_pcr_list: returns the rc and the ordered
list of (index, value) stores into pcr_list made by the piece loop. -/
def attest_util_parse_pcr_list (s : List Char) (num : Nat) : Int × List (Nat × Int) :=
  parsePcrGo num (splitCommas s) 0 []

/-! ### src/attest_ra_client.c: send_receive, request side (lines 73-87)

The client computes len = strlen(message_in) + 2 * sizeof(len) with len a
size_t (so len = strlen + 16), writes the 8 bytes of len, the 4 bytes of
the int op, and then len - 16 = strlen payload bytes. -/

/-- Length of a C string stored in a byte list: bytes before the first
NUL. -/
def strlenBytes (s : List Nat) : Nat := (s.takeWhile (fun b => b != 0)).length

/-- Bytes the client puts on the wire for one request (send_receive send
path): 8-byte little-endian total_length = strlen + 16, 4-byte
little-endian two's-complement opcode, then the strlen payload bytes. -/
def clientSendReq (op : Int) (payload : List Nat) : List Nat :=
  toLE 8 ((strlenBytes payload + 16) % 2 ^ 64) ++
    toLE 4 ((op % (2 ^ 32 : Int)).toNat) ++
    payload.take (strlenBytes payload)

/-! ### src/attest_ra_server.c: main request loop (lines 213-332)

Per accepted connection the server reads 8 bytes into the size_t len and
4 bytes into the int op with attest_util_read_buf, computes
len -= 2 * sizeof(len) (size_t arithmetic, so modulo 2^64), allocates
len + 1 bytes, reads len payload bytes, and dispatches on op
(cases 0..4; any other op yields rc = -EINVAL).  On rc == 0 the response
length is strlen(message_out) + sizeof(len) + 1; otherwise len stays 0 and
only the 8 zero bytes of len are written.  A failed read jumps to
out_free where "if (rc) break" leaves the accept loop; a failed first
response write jumps to out; a failed second write also breaks. -/

/-- Payload length the server derives from the total_length it read:
len -= 2 * sizeof(len) on a size_t, i.e. subtraction modulo 2^64.  The
argument is the 64-bit value read from the wire (total < 2^64). -/
def serverPayloadLen (total : Nat) : Nat := (total + 2 ^ 64 - 16) % 2 ^ 64

/-- Server-side decoding of one request frame from the byte stream sent by
the client: read 8 bytes of total_length, 4 bytes of opcode, then
total_length - 16 (mod 2^64) payload bytes; none when the stream ends
before a read completes (attest_util_read_buf fails). -/
def serverReadReq (stream : List Nat) : Option (Int × List Nat) :=
  if 8 ≤ stream.length then
    let total := fromLE (stream.take 8)
    let rest := stream.drop 8
    if 4 ≤ rest.length then
      let op := int32OfNat (fromLE (rest.take 4))
      let rest2 := rest.drop 4
      if serverPayloadLen total ≤ rest2.length then
        some (op, rest2.take (serverPayloadLen total))
      else none
    else none
  else none

/-- Opcode dispatch of the server switch: cases 0..4 call the enrollment
handlers (abstracted by the handler argument, which returns the rc and the
message_out C string as bytes); any other opcode is the default case with
rc = -EINVAL and no message. -/
def dispatch (handler : Int → List Nat → Int × List Nat) (op : Int)
    (msg : List Nat) : Int × List Nat :=
  if 0 ≤ op ∧ op ≤ 4 then handler op msg else (-22, [])

/-- Outcome of the reads and writes one connection performs, abstracting
the socket: hdrTotal and opVal are the values read for total_length and
opcode (none when attest_util_read_buf fails), payloadBytes is the content
a successful payload read returns, mallocOk and the write flags tell
whether malloc and the two response writes succeed. -/
structure ConnEnv where
  hdrTotal : Option Nat
  opVal : Option Int
  mallocOk : Bool
  payloadReadOk : Bool
  payloadBytes : List Nat
  write1Ok : Bool
  write2Ok : Bool

/-- Result of one iteration of the server accept loop: the bytes written
back on the connection and whether the loop goes on to accept the next
connection (false when the "if (rc) break" or the "goto out" after a
failed response write terminates it). -/
structure ConnResult where
  sent : List Nat
  continues : Bool
deriving DecidableEq

/-- One iteration of the server accept loop after accept() succeeds,
following the control flow of main (attest_ra_server.c lines 218-331). -/
def serverConnStep (handler : Int → List Nat → Int × List Nat) (io : ConnEnv) :
    ConnResult :=
  match io.hdrTotal with
  | none => ⟨[], false⟩
  | some _total =>
    match io.opVal with
    | none => ⟨[], false⟩
    | some op =>
      if ¬ io.mallocOk then
        if io.write1Ok then ⟨List.replicate 8 0, true⟩ else ⟨[], false⟩
      else if ¬ io.payloadReadOk then ⟨[], false⟩
      else
        let r := dispatch handler op io.payloadBytes
        let mlen := strlenBytes r.2
        let len := if r.1 = 0 then (mlen + 8 + 1) % 2 ^ 64 else 0
        if ¬ io.write1Ok then ⟨[], false⟩
        else if len = 0 then ⟨List.replicate 8 0, true⟩
        else if ¬ io.write2Ok then ⟨toLE 8 len, false⟩
        else ⟨toLE 8 len ++ (r.2.take mlen ++ [0]), true⟩

/-! ### src/attest_tls_client.c: send_receive_attest_data (lines 67-123)

Before the TLS handshake the client reads the optional local evidence
file, sets data_size = htonl(file_size) (data_size and file_size are
size_t, htonl byte-swaps the low 32 bits on a little-endian machine),
writes sizeof(data_size) = 8 bytes of data_size, then file_size evidence
bytes when file_size is nonzero; it then reads 8 bytes back, applies
ntohl, and reads that many reply bytes when nonzero.  malloc is assumed to
succeed (its failure path returns -ENOMEM and is not modelled). -/

/-- Byte swap of the low 32 bits, the little-endian htonl/ntohl. -/
def bswap32 (x : Nat) : Nat :=
  x % 256 * 2 ^ 24 + x / 2 ^ 8 % 256 * 2 ^ 16 + x / 2 ^ 16 % 256 * 2 ^ 8 +
    x / 2 ^ 24 % 256

/-- Big-endian (network order) 4-byte encoding of a 32-bit value. -/
def be32 (n : Nat) : List Nat :=
  [n / 2 ^ 24 % 256, n / 2 ^ 16 % 256, n / 2 ^ 8 % 256, n % 256]

/-- Bytes the TLS client writes on the raw socket before the handshake:
the 8 bytes of the size_t data_size = htonl(file_size), then the evidence
when file_size is nonzero.  evidence = none models a client with no
attest-data path configured (or an unreadable file): file_size stays 0. -/
def tlsClientSendBytes (evidence : Option (List Nat)) : List Nat :=
  let file_size := match evidence with | none => 0 | some e => e.length
  toLE 8 (bswap32 (file_size % 2 ^ 32)) ++
    (if file_size ≠ 0 then evidence.getD [] else [])

/-- TLS client read of the server evidence reply: 8 bytes into data_size,
ntohl of its low 32 bits, then that many bytes when nonzero; none when the
stream is too short for a read (attest_util_read_buf fails). -/
def tlsClientRecv (stream : List Nat) : Option (List Nat) :=
  if 8 ≤ stream.length then
    let n := bswap32 (fromLE (stream.take 8) % 2 ^ 32)
    if n ≠ 0 then
      if n ≤ (stream.drop 8).length then some ((stream.drop 8).take n)
      else none
    else some []
  else none

/-! ### Concrete instances used by the witnesses and counterexamples -/

/-- Handler in which every opcode in 0..4 fails with -EPERM (-1). -/
def hFailC2 (_ : Int) (_ : List Nat) : Int × List Nat := (-1, [])

/-- Connection whose reads all succeed (total_length 16, opcode 7). -/
def ioC2ok : ConnEnv := ⟨some 16, some 7, true, true, [], true, true⟩

/-- Connection whose first read (total_length) fails. -/
def ioC2bad : ConnEnv := ⟨none, some 0, true, true, [], true, true⟩

/-- Connection whose second read (the opcode) fails. -/
def ioC2badOp : ConnEnv := ⟨some 16, none, true, true, [], true, true⟩

/-- Connection whose payload read fails after malloc succeeded. -/
def ioC2badPayload : ConnEnv := ⟨some 20, some 2, true, false, [], true, true⟩

/-- Handler in which every opcode in 0..4 fails with -ENOMEM (-12). -/
def hFailC4 (_ : Int) (_ : List Nat) : Int × List Nat := (-12, [])

/-- Connection whose reads all succeed (total_length 20, opcode 3). -/
def ioC4 : ConnEnv := ⟨some 20, some 3, true, true, [65, 66, 67, 68], true, true⟩

/-! ## Theorems -/

theorem toLE_length (k v : Nat) : (toLE k v).length = k := by
  induction k generalizing v with
  | zero => rfl
  | succ k ih => simp [toLE, ih]

theorem toLE_zero (k : Nat) : toLE k 0 = List.replicate k 0 := by
  induction k with
  | zero => rfl
  | succ k ih => simp [toLE, ih, List.replicate_succ]

theorem fromLE_toLE (k v : Nat) (h : v < 2 ^ (8 * k)) : fromLE (toLE k v) = v := by
  induction k generalizing v with
  | zero => simp at h; simp [toLE, fromLE, h]
  | succ k ih =>
      have hdiv : v / 256 < 2 ^ (8 * k) := by
        rw [Nat.div_lt_iff_lt_mul (by norm_num)]
        calc v < 2 ^ (8 * (k + 1)) := h
        _ = 2 ^ (8 * k) * 256 := by ring
      simp only [toLE, fromLE, ih (v / 256) hdiv]
      omega

theorem fromLE_append (bs cs : List Nat) :
    fromLE (bs ++ cs) = fromLE bs + 2 ^ (8 * bs.length) * fromLE cs := by
  induction bs with
  | nil => simp [fromLE]
  | cons b bs ih =>
      have hstep : fromLE (b :: (bs ++ cs)) = b + 256 * fromLE (bs ++ cs) := rfl
      have hstep2 : fromLE (b :: bs) = b + 256 * fromLE bs := rfl
      rw [List.cons_append, hstep, ih, List.length_cons, hstep2]
      ring

theorem fromLE_replicate_zero (k : Nat) : fromLE (List.replicate k 0) = 0 := by
  induction k with
  | zero => rfl
  | succ k ih => simp [List.replicate_succ, fromLE, ih]

theorem toLE_fromLE_pad (bs : List Nat) (j : Nat) (h : ∀ b ∈ bs, b < 256) :
    toLE (bs.length + j) (fromLE bs) = bs ++ List.replicate j 0 := by
  induction bs with
  | nil => simpa [fromLE] using toLE_zero j
  | cons b bs ih =>
      have hb : b < 256 := h b (List.mem_cons_self b bs)
      have hmod : (b + 256 * fromLE bs) % 256 = b := by omega
      have hdiv : (b + 256 * fromLE bs) / 256 = fromLE bs := by omega
      have harg : ∀ x ∈ bs, x < 256 := fun x hx => h x (List.mem_cons_of_mem b hx)
      simp only [List.length_cons, fromLE]
      show toLE (bs.length + 1 + j) (b + 256 * fromLE bs) = _
      have : bs.length + 1 + j = (bs.length + j) + 1 := by omega
      rw [this]
      simp only [toLE, hmod, hdiv, ih harg, List.cons_append]

theorem cmLoop_eq_zero_of (A : List Nat) (R : List Nat) (i : Nat)
    (hle : i + R.length ≤ A.length)
    (hc : ∀ j, j < R.length → A.getD (i + j) 0 &&& R.getD j 0 = R.getD j 0) :
    cmLoop A i R = some 0 := by
  induction R generalizing i with
  | nil => rfl
  | cons r rs ih =>
      have hi : i < A.length := by simp only [List.length_cons] at hle; omega
      have h0 := hc 0 (by simp)
      simp only [Nat.add_zero, List.getD_cons_zero] at h0
      rw [List.getD_eq_getElem A 0 hi] at h0
      simp only [cmLoop]
      rw [if_neg (by omega), List.getElem?_eq_getElem hi]
      change (if ¬ (A[i] &&& r = r) then some (-2) else cmLoop A (i + 1) rs) = _
      rw [if_neg (by simp [h0])]
      apply ih
      · simp only [List.length_cons] at hle; omega
      · intro j hj
        have := hc (j + 1) (by simp only [List.length_cons]; omega)
        simpa [Nat.add_assoc, Nat.add_comm 1 j] using this

theorem cmLoop_eq_noent_of (A : List Nat) (R : List Nat) (i : Nat)
    (hle : i + R.length ≤ A.length)
    (hnc : ¬ ∀ j, j < R.length → A.getD (i + j) 0 &&& R.getD j 0 = R.getD j 0) :
    cmLoop A i R = some (-2) := by
  induction R generalizing i with
  | nil => exact absurd (fun j hj => absurd hj (by simp)) hnc
  | cons r rs ih =>
      have hi : i < A.length := by simp only [List.length_cons] at hle; omega
      simp only [cmLoop]
      rw [if_neg (by omega), List.getElem?_eq_getElem hi]
      change (if ¬ (A[i] &&& r = r) then some (-2) else cmLoop A (i + 1) rs) = _
      by_cases hb : A[i] &&& r = r
      · rw [if_neg (by simp [hb])]
        apply ih
        · simp only [List.length_cons] at hle; omega
        · intro hall
          apply hnc
          intro j hj
          match j with
          | 0 =>
              simp only [Nat.add_zero, List.getD_cons_zero]
              rw [List.getD_eq_getElem A 0 hi]
              exact hb
          | j + 1 =>
              have := hall j (by simp only [List.length_cons] at hj; omega)
              simpa [Nat.add_assoc, Nat.add_comm 1 j] using this
      · rw [if_pos (by simp [hb])]

theorem maskCoversSpec_iff (A R : List Nat) :
    maskCoversSpec A R = true ↔
      ∀ j, j < R.length → A.getD j 0 &&& R.getD j 0 = R.getD j 0 := by
  unfold maskCoversSpec
  rw [List.all_eq_true]
  constructor
  · intro h j hj
    have := h j (List.mem_range.mpr hj)
    exact beq_iff_eq.mp (by simpa using this)
  · intro h j hj
    have := h j (List.mem_range.mp hj)
    simpa using beq_iff_eq.mpr this

/-- C1 counterexample: with asserted mask A = [0x01, 0x00] (length 2) and
required mask R = [0x01] (length 1) every bit set in R is set in A, yet
attest_util_check_mask fails with -EINVAL instead of succeeding, so the
claimed equivalence between success and bit coverage is false as stated
over all mask lengths. -/
theorem c1_counterexample :
    maskCoversSpec [1, 0] [1] = true ∧
    attest_util_check_mask [1, 0] [1] = some (-22) ∧
    attest_util_check_mask [1, 0] [1] ≠ some 0 := by decide

/-- C1 (amended): for asserted and required masks of equal length,
attest_util_check_mask succeeds (returns 0) if and only if every bit set
in the required mask is set in the asserted mask, and when some required
bit is missing it fails with -ENOENT; in particular R = 0b00000101 with
A = 0b00000100 fails with -ENOENT and with A = 0b00000111 succeeds. -/
theorem c1_check_mask_equal_length (A R : List Nat) (h : A.length = R.length) :
    (attest_util_check_mask A R = some 0 ↔ maskCoversSpec A R = true) ∧
    (maskCoversSpec A R = false → attest_util_check_mask A R = some (-2)) := by
  have hg : ¬ A.length > R.length := by omega
  unfold attest_util_check_mask
  rw [if_neg hg]
  by_cases hc : ∀ j, j < R.length → A.getD j 0 &&& R.getD j 0 = R.getD j 0
  · have hz := cmLoop_eq_zero_of A R 0 (by omega) (by simp only [Nat.zero_add]; exact hc)
    rw [hz]
    constructor
    · have hmt := (maskCoversSpec_iff A R).mpr hc
      simp [hmt]
    · intro hf
      rw [(maskCoversSpec_iff A R).mpr hc] at hf
      exact absurd hf (by simp)
  · have hz := cmLoop_eq_noent_of A R 0 (by omega) (by simp only [Nat.zero_add]; exact hc)
    rw [hz]
    refine ⟨⟨fun hco => absurd (Option.some.inj hco) (by norm_num), fun ht => ?_⟩,
      fun _ => rfl⟩
    exact absurd ((maskCoversSpec_iff A R).mp ht) hc

/-- C1 witness: the amended theorem applied to the single-byte masks of
the claim, A = 0b00000100 and R = 0b00000101, plus the direct evaluation
of the succeeding example A = 0b00000111. -/
theorem c1_witness :
    attest_util_check_mask [4] [5] = some (-2) ∧
    attest_util_check_mask [7] [5] = some 0 :=
  ⟨(c1_check_mask_equal_length [4] [5] rfl).2 (by decide), by decide⟩

/-- C3 counterexample: with asserted mask A = [0x00] strictly shorter than
required mask R = [0x01, 0x00], attest_util_check_mask returns -ENOENT,
not the claimed -EINVAL: the length guard in the code fires on
mask_in_len > mask_ref_len, not on mask_in_len < mask_ref_len. -/
theorem c3_counterexample :
    attest_util_check_mask [0] [1, 0] = some (-2) ∧
    some (-2 : Int) ≠ some (-22 : Int) := by decide

/-- C3 (amended): attest_util_check_mask fails with -EINVAL exactly on the
opposite length condition to the one claimed: whenever the asserted mask
is strictly longer than the required mask.  A strictly shorter asserted
mask is not rejected with -EINVAL; the loop runs and reads past the end of
the asserted mask (undefined behaviour) unless a missing required bit
stops it first with -ENOENT. -/
theorem c3_check_mask_longer_invalid (A R : List Nat) (h : A.length > R.length) :
    attest_util_check_mask A R = some (-22) := by
  unfold attest_util_check_mask
  rw [if_pos h]

/-- C3 witness: the amended theorem applied to a 2-byte asserted mask and
a 1-byte required mask. -/
theorem c3_witness : attest_util_check_mask [1, 2] [3] = some (-22) :=
  c3_check_mask_longer_invalid [1, 2] [3] (by decide)

/-- C7: evaluation of attest_util_rw_buf at the failing input.  When the
first underlying read/write call reports failure (-1) with 4 bytes
requested, the function returns 0 (success) after transferring no bytes:
cur_processed is a size_t, so -1 is stored as 2^64 - 1, escapes the
cur_processed <= 0 check, and pushes processed past buf_len, ending the
loop.  The claim says any 0 or -1 before completion yields -EIO. -/
theorem c7_rw_buf_error_returns_success :
    attest_util_rw_buf [-1] 4 = some 0 ∧ attest_util_rw_buf [0] 4 = some (-5) := by
  constructor
  · decide
  · decide

/-- C10: evaluation of attest_util_parse_pcr_list at the failing input.
With input "1,2" and an output array of capacity 1, the loop stores
pcr_list[0] = 1 and then pcr_list[1] = 2 - one slot past the end of the
array - and returns 0 instead of stopping with -ERANGE before any store at
an index at or beyond the capacity: the guard is i > pcr_list_num where
i >= pcr_list_num is needed. -/
theorem c10_parse_pcr_list_overflow :
    attest_util_parse_pcr_list ['1', ',', '2'] 1 = (0, [(0, 1), (1, 2)]) := by
  decide

theorem strlenBytes_eq_length (l : List Nat) (h : ∀ b ∈ l, b ≠ 0) :
    strlenBytes l = l.length := by
  unfold strlenBytes
  congr 1
  induction l with
  | nil => rfl
  | cons a l ih =>
      have ha : a ≠ 0 := h a (List.mem_cons_self a l)
      simp [List.takeWhile_cons, ha, ih (fun x hx => h x (List.mem_cons_of_mem a hx))]

/-- C5 counterexample: the empty payload is framed with total_length 16,
not the claimed 0 + 12: both endpoints count the header as
2 * sizeof(size_t) = 16 bytes even though only 12 header bytes (8 + 4) go
on the wire. -/
theorem c5_counterexample :
    fromLE ((clientSendReq 0 []).take 8) = 16 ∧ (16 : Nat) ≠ 0 + 12 := by decide

/-- C5 (amended): for every request frame the payload occupies
total_length - 16 bytes: the client sends total_length equal to the
payload length plus 2 * sizeof(size_t) = 16, and the server computes the
payload length to read as total_length - 16; the header actually written
is 12 bytes (8-byte total_length + 4-byte opcode), so total_length
overstates the bytes on the wire by 4. -/
theorem c5_frame_uses_16 (op : Int) (payload : List Nat)
    (hnul : ∀ b ∈ payload, b ≠ 0) (hlen : payload.length + 16 < 2 ^ 64) :
    fromLE ((clientSendReq op payload).take 8) = payload.length + 16 ∧
    serverPayloadLen (payload.length + 16) = payload.length ∧
    (clientSendReq op payload).length = payload.length + 12 := by
  have hsl : strlenBytes payload = payload.length := strlenBytes_eq_length payload hnul
  have hmod64 : (payload.length + 16) % 2 ^ 64 = payload.length + 16 :=
    Nat.mod_eq_of_lt hlen
  have hstream : clientSendReq op payload =
      toLE 8 (payload.length + 16) ++
        (toLE 4 ((op % (2 ^ 32 : Int)).toNat) ++ payload) := by
    unfold clientSendReq
    rw [hsl, hmod64, List.take_length, List.append_assoc]
  refine ⟨?_, ?_, ?_⟩
  · rw [hstream, List.take_left' (toLE_length 8 (payload.length + 16)),
      fromLE_toLE 8 (payload.length + 16) (by norm_num at hlen ⊢; omega)]
  · unfold serverPayloadLen
    omega
  · rw [hstream]
    simp [toLE_length]
    omega
/-- C5 witness: the amended frame-length theorem applied to opcode 1 and
the one-byte payload [65]. -/
theorem c5_witness :
    fromLE ((clientSendReq 1 [65]).take 8) = [65].length + 16 ∧
    serverPayloadLen ([65].length + 16) = [65].length ∧
    (clientSendReq 1 [65]).length = [65].length + 12 :=
  c5_frame_uses_16 1 [65] (by decide) (by decide)

/-- C8: evaluation of the server payload-length computation at the failing
input.  A frame whose total_length reads 15 (smaller than the 16-byte
header the code assumes) is not rejected: len -= 2 * sizeof(len) wraps the
size_t to 2^64 - 1, so the server derives a payload length from the bad
total_length, and malloc(len + 1) is called with (2^64 - 1) + 1 = 0, after
which message_in[len] = 0 stores a byte 2^64 - 1 past a zero-byte
allocation (undefined behaviour), instead of failing with a protocol
error. -/
theorem c8_short_total_length_wraps :
    serverPayloadLen 15 = 2 ^ 64 - 1 ∧ (serverPayloadLen 15 + 1) % 2 ^ 64 = 0 := by
  constructor <;> norm_num [serverPayloadLen]

/-- C9: frame round-trip.  For every opcode in 0..4 and every NUL-free
payload whose length leaves total_length under 2^64, encoding the request
with the client send path and decoding the bytes with the server read path
yields back exactly the opcode and the payload. -/
theorem c9_frame_roundtrip (op : Int) (payload : List Nat)
    (hop : 0 ≤ op ∧ op ≤ 4) (hnul : ∀ b ∈ payload, b ≠ 0)
    (hlen : payload.length + 16 < 2 ^ 64) :
    serverReadReq (clientSendReq op payload) = some (op, payload) := by
  have hsl : strlenBytes payload = payload.length := strlenBytes_eq_length payload hnul
  have hmod64 : (payload.length + 16) % 2 ^ 64 = payload.length + 16 :=
    Nat.mod_eq_of_lt hlen
  have hopmod : op % (2 ^ 32 : Int) = op :=
    Int.emod_eq_of_lt hop.1 (by norm_num; omega)
  have hoptn : ((op % (2 ^ 32 : Int)).toNat) = op.toNat := by rw [hopmod]
  have hoplt : op.toNat < 2 ^ 31 := by norm_num; omega
  have hstream : clientSendReq op payload =
      toLE 8 (payload.length + 16) ++ (toLE 4 op.toNat ++ payload) := by
    unfold clientSendReq
    rw [hsl, hmod64, List.take_length, hoptn, List.append_assoc]
  rw [hstream]
  simp only [serverReadReq]
  rw [List.take_left' (toLE_length 8 (payload.length + 16)),
    List.drop_left' (toLE_length 8 (payload.length + 16)),
    List.take_left' (toLE_length 4 op.toNat),
    List.drop_left' (toLE_length 4 op.toNat)]
  have htot : fromLE (toLE 8 (payload.length + 16)) = payload.length + 16 :=
    fromLE_toLE 8 (payload.length + 16) (by norm_num at hlen ⊢; omega)
  have hopv : fromLE (toLE 4 op.toNat) = op.toNat :=
    fromLE_toLE 4 op.toNat (by norm_num; omega)
  rw [htot, hopv]
  have hplen : serverPayloadLen (payload.length + 16) = payload.length := by
    unfold serverPayloadLen
    omega
  rw [hplen]
  have hint : int32OfNat op.toNat = op := by
    unfold int32OfNat
    rw [if_pos hoplt, Int.toNat_of_nonneg hop.1]
  rw [hint, List.take_length]
  simp [toLE_length]

/-- C9 witness: the round-trip theorem applied to opcode 4 and payload
[1, 2, 3]. -/
theorem c9_witness :
    serverReadReq (clientSendReq 4 [1, 2, 3]) = some (4, [1, 2, 3]) :=
  c9_frame_roundtrip 4 [1, 2, 3] (by decide) (by decide) (by decide)

/-- C4: for every connection whose reads succeed and whose dispatched
opcode handler fails - including every opcode outside the fixed set 0..4,
which the default case rejects with -EINVAL - the server writes exactly
the 8 zero bytes of the total_length sentinel and no payload bytes; the
response does not depend on which nonzero rc the handler produced, so no
information about the internal error reaches the client. -/
theorem c4_error_response_uniform (handler : Int → List Nat → Int × List Nat)
    (io : ConnEnv) (t : Nat) (op : Int)
    (h1 : io.hdrTotal = some t) (h2 : io.opVal = some op)
    (h3 : io.mallocOk = true) (h4 : io.payloadReadOk = true)
    (h5 : io.write1Ok = true)
    (h6 : (dispatch handler op io.payloadBytes).1 ≠ 0 ∨ op < 0 ∨ 4 < op) :
    (serverConnStep handler io).sent = List.replicate 8 0 := by
  have hrc : (dispatch handler op io.payloadBytes).1 ≠ 0 := by
    rcases h6 with h | h | h
    · exact h
    · unfold dispatch
      rw [if_neg (by omega)]
      decide
    · unfold dispatch
      rw [if_neg (by omega)]
      decide
  simp [serverConnStep, h1, h2, h3, h4, h5, hrc]

/-- C4 witness: the error-response theorem applied to a handler failing
with -ENOMEM on a well-formed request with opcode 3. -/
theorem c4_witness : (serverConnStep hFailC4 ioC4).sent = List.replicate 8 0 :=
  c4_error_response_uniform hFailC4 ioC4 20 3 rfl rfl rfl rfl rfl (Or.inl (by decide))

/-- C2 counterexample: a connection whose first read (of total_length)
fails makes the server send nothing - not the zero-length error
response - and leave the accept loop ("if (rc) break" after out_free), so
a per-connection read fault does terminate the accept loop, contrary to
the claim. -/
theorem c2_counterexample :
    (serverConnStep hFailC2 ioC2bad).sent = [] ∧
    (serverConnStep hFailC2 ioC2bad).continues = false := by decide

/-- C2 (amended): when dispatching the request fails, the server sends the
zero-length error response for that connection and proceeds to accept the
next connection; but when any of the three request reads fails - of the
total_length, of the opcode, or of the payload (the latter after malloc
succeeded, the only case in which the payload read is reached) - the
server sends no response and the accept loop (and hence the server
process) terminates. -/
theorem c2_fault_paths (handler : Int → List Nat → Int × List Nat)
    (io : ConnEnv) (t : Nat) (op : Int)
    (h1 : io.hdrTotal = some t) (h2 : io.opVal = some op)
    (h3 : io.mallocOk = true) (h4 : io.payloadReadOk = true)
    (h5 : io.write1Ok = true)
    (h6 : (dispatch handler op io.payloadBytes).1 ≠ 0) :
    serverConnStep handler io = ⟨List.replicate 8 0, true⟩ ∧
    (∀ io2 : ConnEnv,
      io2.hdrTotal = none ∨ io2.opVal = none ∨
        (io2.mallocOk = true ∧ io2.payloadReadOk = false) →
      serverConnStep handler io2 = ⟨[], false⟩) := by
  constructor
  · simp [serverConnStep, h1, h2, h3, h4, h5, h6]
  · intro io2 h
    rcases h with h | h | h
    · simp [serverConnStep, h]
    · cases hh : io2.hdrTotal with
      | none => simp [serverConnStep, hh]
      | some t2 => simp [serverConnStep, hh, h]
    · cases hh : io2.hdrTotal with
      | none => simp [serverConnStep, hh]
      | some t2 =>
          cases ho : io2.opVal with
          | none => simp [serverConnStep, hh, ho]
          | some op2 => simp [serverConnStep, hh, ho, h.1, h.2]

/-- C2 witness: the fault-path theorem applied to a request with the
out-of-range opcode 7 (dispatch fails with -EINVAL) and to connections
whose total_length read, opcode read, and payload read fail. -/
theorem c2_witness :
    serverConnStep hFailC2 ioC2ok = ⟨List.replicate 8 0, true⟩ ∧
    serverConnStep hFailC2 ioC2bad = ⟨[], false⟩ ∧
    serverConnStep hFailC2 ioC2badOp = ⟨[], false⟩ ∧
    serverConnStep hFailC2 ioC2badPayload = ⟨[], false⟩ := by
  have h := c2_fault_paths hFailC2 ioC2ok 16 7 rfl rfl rfl rfl rfl (by decide)
  exact ⟨h.1, h.2 ioC2bad (Or.inl rfl), h.2 ioC2badOp (Or.inr (Or.inl rfl)),
    h.2 ioC2badPayload (Or.inr (Or.inr ⟨rfl, rfl⟩))⟩

theorem bswap32_lt (x : Nat) : bswap32 x < 2 ^ 32 := by
  unfold bswap32
  omega

theorem bswap32_eq_fromLE_be32 (x : Nat) : bswap32 x = fromLE (be32 x) := by
  simp only [bswap32, be32, fromLE]
  ring

theorem be32_bytes_lt (x : Nat) : ∀ b ∈ be32 x, b < 256 := by
  intro b hb
  simp only [be32, List.mem_cons, List.not_mem_nil, or_false] at hb
  rcases hb with h | h | h | h <;> subst h <;> omega

theorem bswap32_fromLE4 (a b c d : Nat) (ha : a < 256) (hb : b < 256)
    (hc : c < 256) (hd : d < 256) :
    bswap32 (a + 256 * b + 65536 * c + 16777216 * d) =
      d + 256 * c + 65536 * b + 16777216 * a := by
  unfold bswap32
  omega

theorem bswap32_bswap32 (x : Nat) (h : x < 2 ^ 32) : bswap32 (bswap32 x) = x := by
  have hx : x = x % 256 + 256 * (x / 2 ^ 8 % 256) + 65536 * (x / 2 ^ 16 % 256) +
      16777216 * (x / 2 ^ 24) := by omega
  have ha : x % 256 < 256 := by omega
  have hb : x / 2 ^ 8 % 256 < 256 := by omega
  have hc : x / 2 ^ 16 % 256 < 256 := by omega
  have hd : x / 2 ^ 24 < 256 := by omega
  calc bswap32 (bswap32 x)
      = bswap32 (bswap32 (x % 256 + 256 * (x / 2 ^ 8 % 256) +
          65536 * (x / 2 ^ 16 % 256) + 16777216 * (x / 2 ^ 24))) := by rw [← hx]
    _ = bswap32 (x / 2 ^ 24 + 256 * (x / 2 ^ 16 % 256) +
          65536 * (x / 2 ^ 8 % 256) + 16777216 * (x % 256)) := by
            rw [bswap32_fromLE4 _ _ _ _ ha hb hc hd]
    _ = x % 256 + 256 * (x / 2 ^ 8 % 256) + 65536 * (x / 2 ^ 16 % 256) +
          16777216 * (x / 2 ^ 24) := bswap32_fromLE4 _ _ _ _ hd hc hb ha
    _ = x := hx.symm

/-- C6 counterexample: with no local evidence file configured the client
writes 8 bytes (all zero) before the handshake - the whole size_t holding
htonl(0) - not the claimed exactly-4-byte network-order length: the write
uses sizeof(data_size) = 8. -/
theorem c6_counterexample :
    tlsClientSendBytes none = List.replicate 8 0 ∧
    (tlsClientSendBytes none).length ≠ 4 := by decide

/-- C6 (amended): in the pre-handshake side channel the client writes an
8-byte length field - the 4-byte network-byte-order (big-endian) length
followed by 4 zero bytes, the little-endian size_t image of
htonl(length) - then the evidence bytes (none when no evidence file is
configured, in which case the field is 8 zero bytes), and reads the
server reply in the same 8-byte-length-prefixed format, taking the length
from the first 4 bytes in network order; the zero-evidence exchange still
completes without error (the reply [0,0,0,0,0,0,0,0] decodes to the empty
blob, the reply case of length 0). -/
theorem c6_tls_sidechannel (e reply : List Nat) (he : e.length < 2 ^ 32)
    (hr : reply.length < 2 ^ 32) :
    tlsClientSendBytes (some e) =
      be32 e.length ++ List.replicate 4 0 ++ (if e.length ≠ 0 then e else []) ∧
    tlsClientSendBytes none = List.replicate 8 0 ∧
    tlsClientRecv (be32 reply.length ++ List.replicate 4 0 ++ reply) = some reply := by
  have hpad : ∀ n : Nat, toLE 8 (bswap32 n) = be32 n ++ List.replicate 4 0 := by
    intro n
    rw [bswap32_eq_fromLE_be32]
    have hp := toLE_fromLE_pad (be32 n) 4 (be32_bytes_lt n)
    rw [show (be32 n).length = 4 from rfl] at hp
    norm_num at hp
    exact hp
  have h8 : (be32 reply.length ++ List.replicate 4 0).length = 8 := by
    simp [be32]
  refine ⟨?_, by decide, ?_⟩
  · show toLE 8 (bswap32 (e.length % 2 ^ 32)) ++
      (if e.length ≠ 0 then (some e).getD [] else []) = _
    rw [Nat.mod_eq_of_lt he, hpad e.length]
    rfl
  · have hds : fromLE (be32 reply.length ++ List.replicate 4 0) % 2 ^ 32 =
        bswap32 reply.length := by
      rw [fromLE_append, fromLE_replicate_zero, ← bswap32_eq_fromLE_be32]
      simp only [Nat.mul_zero, Nat.add_zero]
      exact Nat.mod_eq_of_lt (bswap32_lt reply.length)
    have hlen8 : 8 ≤ (be32 reply.length ++ List.replicate 4 0 ++ reply).length := by
      simp [be32]
    simp only [tlsClientRecv]
    rw [List.take_left' h8, List.drop_left' h8, hds,
      bswap32_bswap32 reply.length hr, if_pos hlen8]
    by_cases hz : reply.length = 0
    · rw [if_neg (by omega)]
      rw [List.length_eq_zero] at hz
      rw [hz]
    · rw [if_pos hz, if_pos (le_refl reply.length), List.take_length]

/-- C6 witness: the amended side-channel theorem applied to the one-byte
evidence blob [5] and the two-byte server reply [9, 9]. -/
theorem c6_witness :
    tlsClientSendBytes (some [5]) =
      be32 [5].length ++ List.replicate 4 0 ++ (if [5].length ≠ 0 then [5] else []) ∧
    tlsClientSendBytes none = List.replicate 8 0 ∧
    tlsClientRecv (be32 [9, 9].length ++ List.replicate 4 0 ++ [9, 9]) = some [9, 9] :=
  c6_tls_sidechannel [5] [9, 9] (by decide) (by decide)
